import Mathlib

/-!
Verification of the npmBridge synchronization and self-healing subsystem.

This file gives a shallow embedding, in Lean 4, of the Python scripts under
src/scripts/ (the bounded-concurrency refresh orchestrator with its progress
tracker, the archive-integrity checker and repairer, the storage scanner, and
the diff/freeze/sync snapshotter), and proves properties of the embedding.

Modelling conventions:
- Names (directory names, package names, file names) are lists of characters.
- Filesystem trees are association lists from relative paths (lists of path
  segments) to file metadata; modification times and contents are naturals
  (Python compares st_mtime values with a strict order; the float rendering
  is irrelevant to the comparison logic and is modelled by a Nat).
- Subprocess invocations are abstracted by their observable outcome (exit ok,
  non-zero exit with captured output, timeout, or a raised exception).
- Thread-pool execution is modelled by folding over an arbitrary completion
  order of the work list: the pool serializes every counter update under a
  single lock, so any interleaving is some list order.
- Wall-clock timestamps (updatedAt fields) and float percent renderings are
  not represented: no property here depends on them.
-/

/-- Character-list names, mirroring Python str values used as names/paths. -/
abbrev Name := List Char

/-- Test whether a character-list name starts with the given character,
mirroring Python str.startswith on a one-character prefix. -/
def startsC (c : Char) : Name → Bool
  | [] => false
  | c0 :: _ => c0 = c

/- ===================================================================
   Diff/freeze/sync model (create_diff.py, sync_frozen.py)
   =================================================================== -/

/-- Metadata of a file in a tree: abstract content plus st_mtime.  copy2
copies both content and modification time, so a copy is the same value. -/
structure FileMeta where
  content : Nat
  mtime : Nat
deriving DecidableEq, Repr

/-- Relative path of a file below a tree root, as its list of segments. -/
abbrev RelPath := List Name

/-- Storage (or frozen) tree listing: pairs of relative path and file
metadata, one pair per regular file found by rglob. -/
abbrev FsTree := List (RelPath × FileMeta)

/-- Frozen-tree lookup: a function from relative path to the file found
there, if any (Path.exists plus stat in the Python code). -/
abbrev FrozenMap := RelPath → Option FileMeta

/-- Empty frozen tree (the initially-empty baseline). -/
def emptyFrozen : FrozenMap := fun _ => none

/-- Final segment of a relative path: Path.name in the Python code. -/
def fname (p : RelPath) : Name := p.getLastD []

/-- Service file names excluded from every diff, from create_diff.py
(exclude_names = {'.sinopia-db.json', '.verdaccio-db.json', '.DS_Store'}). -/
def excludeNames : List Name :=
  [".sinopia-db.json".data, ".verdaccio-db.json".data, ".DS_Store".data]

/-- Whether a file is skipped by get_diff_files because of its name. -/
def isExcluded (p : RelPath) : Bool := excludeNames.contains (fname p)

/-- Embedding of create_diff.get_diff_files: walk every file of storage;
skip service names; keep a file when it is absent from frozen or its
modification time is strictly newer than its frozen counterpart. -/
def getDiffFiles (storage : FsTree) (frozen : FrozenMap) : FsTree :=
  storage.filterMap (fun pf =>
    if isExcluded pf.1 then none
    else
      match frozen pf.1 with
      | none => some pf
      | some g => if pf.2.mtime > g.mtime then some pf else none)

/-- Relative paths of the diff set (the manifest paths written next to the
archive; sync_frozen reads only the path field of each manifest entry). -/
def diffPaths (storage : FsTree) (frozen : FrozenMap) : List RelPath :=
  (getDiffFiles storage frozen).map Prod.fst

/-- Association-list lookup of a path in a storage listing (the existence
check plus read of the source file in sync_frozen.py). -/
def lookupTree : FsTree → RelPath → Option FileMeta
  | [], _ => none
  | pf :: rest, p => if pf.1 = p then some pf.2 else lookupTree rest p

/-- Point update of a frozen tree: the result of shutil.copy2 placing the
source file (content and mtime) at the destination path. -/
def putFrozen (fr : FrozenMap) (p : RelPath) (f : FileMeta) : FrozenMap :=
  fun q => if q = p then some f else fr q

/-- Embedding of sync_frozen.main's copy loop: for every manifest path, if
the source file exists in storage, copy it (content and mtime) into the
frozen tree; a missing source is logged and skipped, and a copy that raises
(copyFails names the paths whose copy2 call fails) leaves the frozen tree
unchanged at that path and is counted as failed. -/
def syncFrozen (manifest : List RelPath) (storage : FsTree)
    (copyFails : RelPath → Bool) (fr : FrozenMap) : FrozenMap :=
  manifest.foldl (fun acc p =>
    match lookupTree storage p with
    | some f => if copyFails p then acc else putFrozen acc p f
    | none => acc) fr

/-- Number of failed copies in sync_frozen.main's loop: a copy fails when
the source exists but the copy operation raises. -/
def failedCopies (manifest : List RelPath) (storage : FsTree)
    (copyFails : RelPath → Bool) : Nat :=
  manifest.countP (fun p => (lookupTree storage p).isSome && copyFails p)

/-- Paths of a tree listing are pairwise distinct (true of any real
filesystem tree, where a relative path names at most one file). -/
abbrev keysNodup (t : FsTree) : Prop := (t.map Prod.fst).Nodup

/- ===================================================================
   Storage scanner model (lib/packages.py, update_all.py)
   =================================================================== -/

/-- The observable state of a package directory's registry metadata document
(package.json), as read by lib/packages._is_valid_package: the file may be
absent, unreadable (read_text raises), unparsable (json.loads raises), or a
parsed document carrying the keys of its versions map and of its time map. -/
inductive MetaState where
  | absent : MetaState
  | unreadable : MetaState
  | unparsable : MetaState
  | doc (versions : List Name) (timeKeys : List Name) : MetaState
deriving DecidableEq, Repr

/-- Embedding of lib/packages._is_valid_package: a missing metadata document
is accepted; a read or parse failure falls through the except-branch to
acceptance; a parsed document is rejected exactly when its versions map is
empty or its time map carries an unpublished marker. -/
def isValidPackage : MetaState → Bool
  | .absent => true
  | .unreadable => true
  | .unparsable => true
  | .doc versions timeKeys =>
      if versions = [] then false
      else if timeKeys.contains ("unpublished".data) then false
      else true

/-- First character class of the npm-name regex in _is_valid_package_name:
[a-zA-Z0-9@._-]. -/
def isNameCharFirst (c : Char) : Bool :=
  (('a' ≤ c && c ≤ 'z') || ('A' ≤ c && c ≤ 'Z') || ('0' ≤ c && c ≤ '9')
    || c = '@' || c = '.' || c = '_' || c = '-')

/-- Tail character class of the npm-name regex: the first class plus the
slash character. -/
def isNameCharRest (c : Char) : Bool := isNameCharFirst c || c = '/'

/-- Anchored match of the npm-name regex of _is_valid_package_name: one
first-class character followed by any number of tail-class characters. -/
def matchesNameRegex : Name → Bool
  | [] => false
  | c :: rest => isNameCharFirst c && rest.all isNameCharRest

/-- Verdaccio service file names rejected by _is_valid_package_name. -/
def serviceNames : List Name :=
  [".storerc".data, "data.json".data, "package.json".data, "npm-shrinkwrap.json".data]

/-- Embedding of lib/packages._is_valid_package_name: rejects the empty
name, hidden names, flag-like names starting with a dash, Verdaccio service
file names, and names outside the allowed npm character set. -/
def isValidPackageName (name : Name) : Bool :=
  if name = [] then false
  else if startsC '.' name then false
  else if startsC '-' name then false
  else if serviceNames.contains name then false
  else matchesNameRegex name

/-- A second-level directory entry of the storage tree (a package directory
inside a scope directory). -/
structure SubEntry where
  name : Name
  isDir : Bool
  meta : MetaState
deriving DecidableEq, Repr

/-- A top-level directory entry of the storage tree: an unscoped package
directory, a scope directory (with its children), or a plain file. -/
structure TopEntry where
  name : Name
  isDir : Bool
  meta : MetaState
  sub : List SubEntry
deriving DecidableEq, Repr

/-- The top level of a storage tree, in directory-iteration order. -/
abbrev Storage := List TopEntry

/-- Scoped package name composed by the scanners: scope ++ "/" ++ name. -/
def scopedName (scope name : Name) : Name := scope ++ '/' :: name

/-- Body of the inner loop of lib/packages.get_all_packages over the
children of a scope directory: keep a visible subdirectory passing both the
name-validity and the metadata-validity filter. -/
def scanScopedSub (scope : Name) (s : SubEntry) : Option Name :=
  if s.isDir && !startsC '.' s.name
      && isValidPackageName s.name && isValidPackage s.meta then
    some (scopedName scope s.name)
  else none

/-- Body of the outer loop of lib/packages.get_all_packages over one
top-level storage entry: skip hidden entries; scan the children of a scope
directory; keep an unscoped directory passing both filters. -/
def scanTopEntry (item : TopEntry) : List Name :=
  if startsC '.' item.name then []
  else if startsC '@' item.name then item.sub.filterMap (scanScopedSub item.name)
  else if item.isDir then
    if isValidPackageName item.name && isValidPackage item.meta then
      [item.name]
    else []
  else []

/-- Embedding of lib/packages.get_all_packages: every top-level entry
contributes through scanTopEntry, in directory-iteration order. -/
def getAllPackages (tree : Storage) : List Name := tree.flatMap scanTopEntry

/-- Embedding of update_all.get_package_list (the full-refresh script's own
scanner): skips hidden entries and non-directories only; it applies neither
the name-validity nor the metadata-validity filter. -/
def getPackageList (tree : Storage) : List Name :=
  tree.flatMap (fun item =>
    if startsC '.' item.name then []
    else if startsC '@' item.name then
      item.sub.filterMap (fun s =>
        if s.isDir && !startsC '.' s.name then
          some (scopedName item.name s.name)
        else none)
    else if item.isDir then [item.name]
    else [])

/- ===================================================================
   Installer outcome and progress tracker (update_all.py)
   =================================================================== -/

/-- Observable outcome of one pnpm subprocess invocation: clean exit,
non-zero exit with captured output, TimeoutExpired, or another exception. -/
inductive Outcome where
  | ok : Outcome
  | fail (msg : Name) : Outcome
  | timeout : Outcome
  | exc (msg : Name) : Outcome
deriving DecidableEq, Repr

/-- Whether install_package sets success (returncode == 0 and no raise). -/
def outcomeSuccess : Outcome → Bool
  | .ok => true
  | _ => false

/-- Error message install_package records for the outcome (stderr or stdout
truncated to 500 characters; the fixed timeout text; the exception text). -/
def outcomeErrMsg : Outcome → Name
  | .ok => []
  | .fail msg => msg.take 500
  | .timeout => "timeout (300s)".data
  | .exc msg => msg

/-- Last n elements of a list: Python slice l[-n:] on a list of length ≥ 0. -/
def lastN (n : Nat) (l : List α) : List α := l.drop (l.length - n)

/-- One progress document as written by ProgressTracker._write_progress
(update_all.py); the float percent and the timestamp are not modelled. -/
structure ProgressReport where
  current : Nat
  total : Nat
  success : Nat
  failed : Nat
  currentPackage : Name
  errors : List (Name × Name)
deriving DecidableEq, Repr

/-- State of update_all.ProgressTracker, together with the progress document
last persisted to the progress file (none when never written). -/
structure Tracker where
  current : Nat
  total : Nat
  currentPackage : Name
  success : Nat
  failed : Nat
  errors : List (Name × Name)
  persisted : Option ProgressReport
deriving DecidableEq, Repr

/-- Fresh tracker for a given work-list size (ProgressTracker.__init__). -/
def initTracker (total : Nat) : Tracker :=
  { current := 0, total := total, currentPackage := [], success := 0,
    failed := 0, errors := [], persisted := none }

/-- The progress document _write_progress derives from a tracker state:
counters verbatim and the last 20 recorded errors. -/
def reportOf (t : Tracker) : ProgressReport :=
  { current := t.current, total := t.total, success := t.success,
    failed := t.failed, currentPackage := t.currentPackage,
    errors := lastN 20 t.errors }

/-- Embedding of ProgressTracker.increment (update_all.py): under the lock,
bump current, record the package, bump the success or failed counter, append
the truncated error on failure, then persist the progress document when
current is a multiple of 10 or equals total. -/
def increment (t : Tracker) (pkg : Name) (success : Bool) (errMsg : Name) :
    Tracker :=
  let t1 : Tracker :=
    { t with
      current := t.current + 1
      currentPackage := pkg
      success := if success then t.success + 1 else t.success
      failed := if success then t.failed else t.failed + 1
      errors :=
        if success then t.errors else t.errors ++ [(pkg, errMsg.take 500)] }
  if t1.current % 10 = 0 ∨ t1.current = t1.total then
    { t1 with persisted := some (reportOf t1) }
  else t1

/-- Embedding of update_all.install_package: the subprocess outcome decides
success and the error message, and the finally-block records the result in
the tracker exactly once on every exit path (success, failure, timeout,
exception). -/
def installPackage (pkg : Name) (o : Outcome) (t : Tracker) :
    Bool × Tracker :=
  (outcomeSuccess o, increment t pkg (outcomeSuccess o) (outcomeErrMsg o))

/-- Work list for one refresh run: each package paired with the outcome its
installer invocation will have. -/
abbrev WorkList := List (Name × Outcome)

/-- Process a work list against a starting tracker state.  The thread pool
serializes all tracker updates under one lock and update_all.main waits for
every future, so the aggregate effect of any schedule is the fold over some
completion order of the work list. -/
def runFrom (t : Tracker) (work : WorkList) : Tracker :=
  work.foldl (fun acc w => (installPackage w.1 w.2 acc).2) t

/-- Full worker-pool run of update_all.main over a work list: a fresh
tracker sized to the list, then every install recorded through it. -/
def runAll (work : WorkList) : Tracker := runFrom (initTracker work.length) work

/-- Summary JSON printed at the end of update_all.main. -/
structure Summary where
  totalPackages : Nat
  success : Nat
  failed : Nat
deriving DecidableEq, Repr

/-- The summary update_all.main prints from the final tracker state. -/
def updateAllSummary (work : WorkList) : Summary :=
  { totalPackages := work.length, success := (runAll work).success,
    failed := (runAll work).failed }

/- ===================================================================
   Archive repairer model (fix_broken.py)
   =================================================================== -/

/-- Environment of one repair attempt: whether the broken archive path
exists before the attempt, the installer invocation's outcome, whether the
expected archive path exists after a successful install, and whether the
archive found there passes the tarfile structural re-validation. -/
structure RepairCase where
  existsBefore : Bool
  install : Outcome
  existsAfter : Bool
  valid : Bool
deriving DecidableEq, Repr

/-- Externally visible steps of fix_broken.reinstall_package. -/
inductive RepairAction where
  | removeBroken : RepairAction
  | runInstaller : RepairAction
  | validateArchive : RepairAction
deriving DecidableEq, Repr

/-- Embedding of fix_broken.reinstall_package: delete the broken archive if
present, invoke the installer, and on a clean exit re-validate the expected
path when it exists; result is the ordered action trace plus the success
flag (true exactly on: clean exit and either an absent output path, counted
conservatively as fixed, or a present path passing re-validation). -/
def reinstallPackage (c : RepairCase) : List RepairAction × Bool :=
  ((if c.existsBefore then [RepairAction.removeBroken] else [])
      ++ [RepairAction.runInstaller]
      ++ (match c.install with
          | .ok => if c.existsAfter then [RepairAction.validateArchive] else []
          | _ => []),
   match c.install with
   | .ok => if c.existsAfter then c.valid else true
   | _ => false)

/-- Span of maximal word-or-dot characters, for the optional prerelease part
of the version regex in fix_broken.extract_package_info (ASCII word
characters; the scanned filenames are ASCII). -/
def isWordDot (c : Char) : Bool := c.isAlphanum || c = '_' || c = '.'

/-- Anchored match at the current position of the version regex
(three dot-separated digit runs, optionally a dash followed by word-or-dot
characters); returns the matched substring.  The regex quantifiers are
greedy, and since each digit run is followed by a literal that is not a
digit, backtracking can never produce a different match. -/
def matchSemverAt (cs : Name) : Option Name :=
  let s1 := cs.span Char.isDigit
  if s1.1 = [] then none
  else
    match s1.2 with
    | '.' :: r2 =>
      let s2 := r2.span Char.isDigit
      if s2.1 = [] then none
      else
        match s2.2 with
        | '.' :: r4 =>
          let s3 := r4.span Char.isDigit
          if s3.1 = [] then none
          else
            let base := s1.1 ++ '.' :: s2.1 ++ '.' :: s3.1
            match s3.2 with
            | '-' :: r6 =>
              let w := (r6.span isWordDot).1
              if w = [] then some base else some (base ++ '-' :: w)
            | _ => some base
        | _ => none
    | _ => none

/-- Leftmost match of the version regex in a filename, as found by
re.search: try each start position from the left. -/
def firstSemverMatch : Name → Option Name
  | [] => none
  | c :: rest =>
    match matchSemverAt (c :: rest) with
    | some v => some v
    | none => firstSemverMatch rest

/-- Embedding of fix_broken.extract_package_info on a path given as the
parent-directory segments plus the filename: the version is the first
semantic-version-shaped substring of the filename (falling back to
"latest"), and the package name comes from the parent segments relative to
the storage root — two segments joined with a slash when the first starts
with a scope sigil, else the first segment, with the parent directory's own
name as fallback when the parent is not under the storage root or equals
it. -/
def extractPackageInfo (storageParts : List Name) (parentParts : List Name)
    (filename : Name) : Name × Name :=
  let version := (firstSemverMatch filename).getD ("latest".data)
  let pkgName :=
    if storageParts.isPrefixOf parentParts then
      match parentParts.drop storageParts.length with
      | [] => parentParts.getLastD []
      | [p0] => p0
      | p0 :: p1 :: _ => if startsC '@' p0 then scopedName p0 p1 else p0
    else parentParts.getLastD []
  (pkgName, version)

/- ===================================================================
   Status documents written by each script (update_status calls)
   =================================================================== -/

/-- Number of failed installs in a work list (the failed counter of the
simple tracker in update_recent.py, which counts exactly the non-ok
outcomes). -/
def failedCount (work : WorkList) : Nat :=
  work.countP (fun w => !outcomeSuccess w.2)

/-- Ordered status values written by update_all.main: running at start;
failed when the base directory is missing; completed when no packages are
found; otherwise running again and then the final status derived from the
tracker's failed counter. -/
def updateAllStatusTrace (homeExists : Bool) (work : WorkList) :
    List String :=
  "running" ::
    (if !homeExists then ["failed"]
    else if work = [] then ["completed"]
    else ["running",
      if (runAll work).failed = 0 then "completed"
      else "completed_with_errors"])

/-- Ordered status values written by update_recent.main (same shape as the
full refresh, with its own tracker counting failed installs). -/
def updateRecentStatusTrace (homeExists : Bool) (work : WorkList) :
    List String :=
  "running" ::
    (if !homeExists then ["failed"]
    else if work = [] then ["completed"]
    else ["running",
      if failedCount work = 0 then "completed"
      else "completed_with_errors"])

/-- Ordered status values written by update_single.main: running, then
failed when the storage directory is missing; otherwise completed on a
successful install and failed on an unsuccessful one. -/
def updateSingleStatusTrace (storageExists : Bool) (o : Outcome) :
    List String :=
  "running" ::
    (if !storageExists then ["failed"]
    else [if outcomeSuccess o then "completed" else "failed"])

/-- Failed count in the final progress document update_single.main writes:
0 on success, 1 on failure (update_progress(1, 1, pkg, 0, 1, ...)). -/
def updateSingleFailedCount (o : Outcome) : Nat :=
  if outcomeSuccess o then 0 else 1

/-- One archive examined by check_broken.py: its path and whether opening
it as a gzipped tar and listing its names raises. -/
abbrev ArchiveCase := Name × Bool

/-- Number of archives the integrity check marks broken. -/
def brokenCount (archives : List ArchiveCase) : Nat :=
  archives.countP (fun a => a.2)

/-- Ordered status values written by check_broken.main: running twice while
initializing and counting; failed when the storage directory is missing;
completed when there are no archives; otherwise running and then completed
when nothing is broken, or the completed_with_issues value otherwise. -/
def checkBrokenStatusTrace (storageExists : Bool)
    (archives : List ArchiveCase) : List String :=
  "running" ::
    (if !storageExists then ["failed"]
    else "running" ::
      (if archives = [] then ["completed"]
      else ["running",
        if brokenCount archives = 0 then "completed"
        else "completed_with_issues"]))

/-- Number of repair attempts counted as failed by fix_broken.main. -/
def failedRepairs (cases : List RepairCase) : Nat :=
  cases.countP (fun c => !(reinstallPackage c).2)

/-- Number of repair attempts counted as fixed by fix_broken.main. -/
def fixedRepairs (cases : List RepairCase) : Nat :=
  cases.countP (fun c => (reinstallPackage c).2)

/-- Ordered status values written by fix_broken.main: running at start;
failed when the broken-list file is missing; completed when the list is
empty; otherwise running and then the final status derived from the failed
counter. -/
def fixBrokenStatusTrace (listExists : Bool) (cases : List RepairCase) :
    List String :=
  "running" ::
    (if !listExists then ["failed"]
    else if cases = [] then ["completed"]
    else ["running",
      if failedRepairs cases = 0 then "completed"
      else "completed_with_errors"])

/-- Ordered status values written by create_diff.main: running twice while
initializing and analyzing; failed when the storage directory is missing;
completed directly when the diff set is empty; otherwise running while
archiving and then completed. -/
def createDiffStatusTrace (storageExists : Bool) (storage : FsTree)
    (frozen : FrozenMap) : List String :=
  "running" ::
    (if !storageExists then ["failed"]
    else "running" ::
      (if getDiffFiles storage frozen = [] then ["completed"]
      else ["running", "completed"]))

/-- Ordered status values written by sync_frozen.main: failed immediately
when no diff identifier is supplied; otherwise running, then failed when
the manifest is missing, and finally completed or completed_with_errors
depending on the failed-copy counter. -/
def syncFrozenStatusTrace (diffIdGiven manifestExists : Bool)
    (manifest : List RelPath) (storage : FsTree)
    (copyFails : RelPath → Bool) : List String :=
  if !diffIdGiven then ["failed"]
  else "running" ::
    (if !manifestExists then ["failed"]
    else [if failedCopies manifest storage copyFails = 0 then "completed"
      else "completed_with_errors"])

/-- Final element of a status trace: the state the status document is left
in when the script exits. -/
def finalStatus (trace : List String) : String := trace.getLastD ""

/-- The status vocabulary named by the specification's StatusState. -/
def specStatusSet : List String :=
  ["pending", "running", "completed", "completed_with_errors", "failed"]

/-- The status vocabulary actually reachable in the code: the spec set plus
the completed_with_issues value written by check_broken.main. -/
def codeStatusSet : List String :=
  specStatusSet ++ ["completed_with_issues"]

/- ===================================================================
   Concrete example inputs
   =================================================================== -/

/-- Round trip of one snapshot cycle against an initially-empty frozen
tree: analyze, then replay the resulting manifest with every copy
succeeding. -/
def freezeRoundTrip (storage : FsTree) : FrozenMap :=
  syncFrozen (diffPaths storage emptyFrozen) storage (fun _ => false) emptyFrozen

/-- Storage tree of the spec's snapshot scenario: a single archive under
a/a-1.0.0.tgz with modification time 10. -/
def exDiffStorage : FsTree := [(["a".data, "a-1.0.0.tgz".data], ⟨1, 10⟩)]

/-- Storage tree holding only an OS metadata file with a service name. -/
def dsStoreStorage : FsTree := [([".DS_Store".data], ⟨7, 5⟩)]

/-- Top level of a storage tree holding the five directory names of the
spec's name-filter property, all with benign metadata. -/
def exScanStorage : Storage :=
  [ ⟨".hidden".data, true, MetaState.absent, []⟩,
    ⟨"-flag-like".data, true, MetaState.absent, []⟩,
    ⟨"data.json".data, true, MetaState.absent, []⟩,
    ⟨"lodash".data, true, MetaState.absent, []⟩,
    ⟨"@scope".data, true, MetaState.absent,
      [⟨"valid-name".data, true, MetaState.absent⟩]⟩ ]

/-- Top level of a storage tree with one package whose versions map is
empty, one with an unpublished marker, and one normal package. -/
def exMetaStorage : Storage :=
  [ ⟨"gone".data, true, MetaState.doc [] [], []⟩,
    ⟨"pulled".data, true,
      MetaState.doc ["1.0.0".data] ["unpublished".data], []⟩,
    ⟨"kept".data, true, MetaState.doc ["1.0.0".data] ["modified".data], []⟩ ]

/-- Top level of a storage tree whose three package directories carry an
absent, an unreadable and an unparsable metadata document. -/
def exErrMetaStorage : Storage :=
  [ ⟨"lodash".data, true, MetaState.absent, []⟩,
    ⟨"react".data, true, MetaState.unreadable, []⟩,
    ⟨"vue".data, true, MetaState.unparsable, []⟩ ]

/-- Work list of two refresh installs, one succeeding and one timing out. -/
def exWork : WorkList :=
  [("lodash".data, Outcome.ok), ("left-pad".data, Outcome.timeout)]

/- ===================================================================
   Lemmas about the diff/freeze/sync model
   =================================================================== -/

/-- Characterization of the diff set: a path is diffed exactly when some
storage file lives there, its name is not a service name, and it is new or
strictly newer relative to the frozen tree. -/
theorem mem_diffPaths (storage : FsTree) (frozen : FrozenMap) (p : RelPath) :
    p ∈ diffPaths storage frozen ↔
      ∃ f, (p, f) ∈ storage ∧ isExcluded p = false ∧
        (frozen p = none ∨
          ∃ g, frozen p = some g ∧ f.mtime > g.mtime) := by
  simp only [diffPaths, getDiffFiles, List.mem_map, List.mem_filterMap]
  constructor
  · rintro ⟨q, ⟨pf, hpf, hstep⟩, rfl⟩
    obtain ⟨p0, f0⟩ := pf
    by_cases hex : isExcluded p0
    · simp [hex] at hstep
    · simp only [hex, if_false, Bool.false_eq_true] at hstep
      cases hfr : frozen p0 with
      | none =>
        simp only [hfr] at hstep
        cases hstep
        exact ⟨f0, hpf, by simpa using hex, Or.inl hfr⟩
      | some g =>
        simp only [hfr] at hstep
        by_cases hmt : f0.mtime > g.mtime
        · simp only [hmt, if_true] at hstep
          cases hstep
          exact ⟨f0, hpf, by simpa using hex, Or.inr ⟨g, hfr, hmt⟩⟩
        · simp [hmt] at hstep
  · rintro ⟨f, hmem, hex, hcond⟩
    refine ⟨(p, f), ⟨(p, f), hmem, ?_⟩, rfl⟩
    rcases hcond with hfr | ⟨g, hfr, hmt⟩
    · simp [hex, hfr]
    · simp [hex, hfr, hmt]

/-- Association-list lookup finds the metadata of a listed file when the
listing's paths are distinct. -/
theorem lookupTree_of_mem (storage : FsTree) (hnd : keysNodup storage)
    (p : RelPath) (f : FileMeta) (hmem : (p, f) ∈ storage) :
    lookupTree storage p = some f := by
  induction storage with
  | nil => cases hmem
  | cons pf rest ih =>
    obtain ⟨hhd, htl⟩ := List.nodup_cons.mp hnd
    rcases List.mem_cons.mp hmem with rfl | hmem2
    · simp [lookupTree]
    · have hne : pf.1 ≠ p := by
        intro h
        exact hhd (h ▸ List.mem_map_of_mem Prod.fst hmem2)
      simp [lookupTree, hne, ih htl hmem2]

/-- A successful lookup returns a listed pair. -/
theorem mem_of_lookupTree (storage : FsTree) (p : RelPath) (f : FileMeta)
    (h : lookupTree storage p = some f) : (p, f) ∈ storage := by
  induction storage with
  | nil => cases h
  | cons pf rest ih =>
    by_cases hpq : pf.1 = p
    · subst hpq
      simp only [lookupTree, if_pos rfl] at h
      cases h
      exact List.mem_cons_self pf rest
    · simp only [lookupTree, hpq, if_false] at h
      exact List.mem_cons_of_mem _ (ih h)

/-- Pointwise value of a sync replay in which every copy succeeds: at a
manifest path whose source exists the frozen tree now holds the storage
file; everywhere else it is unchanged. -/
theorem syncFrozen_apply (ps : List RelPath) (storage : FsTree)
    (fr : FrozenMap) (q : RelPath) :
    syncFrozen ps storage (fun _ => false) fr q =
      if q ∈ ps ∧ (lookupTree storage q).isSome then lookupTree storage q
      else fr q := by
  induction ps generalizing fr with
  | nil => simp [syncFrozen]
  | cons p rest ih =>
    have hstep : syncFrozen (p :: rest) storage (fun _ => false) fr =
        syncFrozen rest storage (fun _ => false)
          (match lookupTree storage p with
            | some f => putFrozen fr p f
            | none => fr) := by
      simp [syncFrozen]
    rw [hstep, ih]
    by_cases hmem : q ∈ rest
    · by_cases hs : (lookupTree storage q).isSome
      · simp [hmem, hs]
      · simp only [hmem, hs, and_false, if_false, true_and, and_true]
        cases hlp : lookupTree storage p with
        | none => simp
        | some f =>
          have hne : q ≠ p := by
            intro h
            rw [h, hlp] at hs
            simp at hs
          simp [putFrozen, hne, if_neg hne]
    · by_cases hqp : q = p
      · subst hqp
        cases hlq : lookupTree storage q with
        | none => simp [hmem, hlq]
        | some f => simp [hmem, hlq, putFrozen]
      · have : ¬ q ∈ p :: rest := by
          intro h
          rcases List.mem_cons.mp h with h | h
          · exact hqp h
          · exact hmem h
        simp only [hmem, false_and, if_false, this]
        cases hlp : lookupTree storage p with
        | none => simp
        | some f => simp [putFrozen, hqp]

/-- After a round trip from an empty baseline, the frozen tree holds every
non-service storage file unchanged. -/
theorem freezeRoundTrip_apply (storage : FsTree) (hnd : keysNodup storage)
    (p : RelPath) (f : FileMeta) (hmem : (p, f) ∈ storage)
    (hex : isExcluded p = false) : freezeRoundTrip storage p = some f := by
  have hlook : lookupTree storage p = some f :=
    lookupTree_of_mem storage hnd p f hmem
  have hdiff : p ∈ diffPaths storage emptyFrozen :=
    (mem_diffPaths storage emptyFrozen p).mpr ⟨f, hmem, hex, Or.inl rfl⟩
  rw [freezeRoundTrip, syncFrozen_apply]
  simp [hdiff, hlook]

/-- A second analyze directly after the round trip finds nothing to diff. -/
theorem second_diff_empty (storage : FsTree) (hnd : keysNodup storage) :
    getDiffFiles storage (freezeRoundTrip storage) = [] := by
  rw [getDiffFiles, List.filterMap_eq_nil_iff]
  rintro ⟨p, f⟩ hmem
  by_cases hex : isExcluded p
  · simp [hex]
  · have hfr : freezeRoundTrip storage p = some f :=
      freezeRoundTrip_apply storage hnd p f hmem (by simpa using hex)
    simp [hex, hfr]

/- ===================================================================
   Claims C4 and C5: diff/freeze/sync
   =================================================================== -/

/-- C4 (counterexample): the round-trip claim fails as stated for files
bearing reserved/service names.  With a storage tree holding only the OS
metadata file .DS_Store — present at analyze time — the frozen tree after
analyze plus sync does not hold that file at all, so it does not match
storage there. -/
theorem c4_roundtrip_counterexample :
    lookupTree dsStoreStorage [".DS_Store".data] = some ⟨7, 5⟩ ∧
    freezeRoundTrip dsStoreStorage [".DS_Store".data] = none := by
  constructor
  · rfl
  · rfl

/-- C4 (amended): for every storage tree with distinct paths and an
initially-empty frozen tree, running analyze and then sync with the
produced manifest yields a frozen tree matching storage (same content and
modification time, since the copy preserves both) for every file present
at analyze time except those bearing reserved/service names, and a second
analyze immediately after the sync yields an empty diff set. -/
theorem c4_roundtrip_amended (storage : FsTree) (hnd : keysNodup storage) :
    (∀ p f, (p, f) ∈ storage → isExcluded p = false →
      freezeRoundTrip storage p = some f) ∧
    getDiffFiles storage (freezeRoundTrip storage) = [] :=
  ⟨fun p f hmem hex => freezeRoundTrip_apply storage hnd p f hmem hex,
    second_diff_empty storage hnd⟩

/-- C4 (witness): the spec scenario — storage holds a/a-1.0.0.tgz with
modification time 10; after the round trip the frozen tree holds it with
the same metadata and the second diff set is empty. -/
theorem c4_roundtrip_witness :
    freezeRoundTrip exDiffStorage ["a".data, "a-1.0.0.tgz".data] =
      some ⟨1, 10⟩ ∧
    getDiffFiles exDiffStorage (freezeRoundTrip exDiffStorage) = [] := by
  have h := c4_roundtrip_amended exDiffStorage (by decide)
  exact ⟨h.1 _ _ (by decide) (by decide), h.2⟩

/-- C5: the analyze phase puts a storage path in the diff set exactly when
some file lives there whose name is not reserved and that is absent from
the frozen tree or strictly newer than its frozen counterpart; paths with
reserved/service names are never in the diff set. -/
theorem c5_analyze_membership (storage : FsTree) (frozen : FrozenMap)
    (p : RelPath) :
    p ∈ diffPaths storage frozen ↔
      ∃ f, (p, f) ∈ storage ∧ isExcluded p = false ∧
        (frozen p = none ∨
          ∃ g, frozen p = some g ∧ f.mtime > g.mtime) :=
  mem_diffPaths storage frozen p

/- ===================================================================
   Claims C6, C7: archive repairer
   =================================================================== -/

/-- C6: a repair item counts as fixed exactly when the installer invocation
exits cleanly and either the expected output path is absent afterwards or
it is present and passes structural re-validation; in particular a present
but invalid archive after a clean install counts as failed. -/
theorem c6_repair_fixed_iff (c : RepairCase) :
    (reinstallPackage c).2 = true ↔
      c.install = Outcome.ok ∧
        (c.existsAfter = false ∨ (c.existsAfter = true ∧ c.valid = true)) := by
  obtain ⟨eb, o, ea, v⟩ := c
  cases o <;> cases ea <;> cases v <;> simp [reinstallPackage]

/-- C7: the repairer derives the version as the first semantic-version
shaped substring of the filename and the package name from the parent
directory segments (two joined when the first carries the scope sigil,
otherwise one) — on left-pad/left-pad-1.3.0.tgz it derives left-pad and
1.3.0, and on a scoped path the joined name — and, whenever the broken file
is present, its deletion is the first action, before the installer runs. -/
theorem c7_repair_derivation :
    extractPackageInfo ["storage".data] ["storage".data, "left-pad".data]
        "left-pad-1.3.0.tgz".data = ("left-pad".data, "1.3.0".data) ∧
    extractPackageInfo ["storage".data]
        ["storage".data, "@angular".data, "core".data]
        "core-15.0.0.tgz".data = ("@angular/core".data, "15.0.0".data) ∧
    ∀ c : RepairCase, c.existsBefore = true →
      ∃ rest, (reinstallPackage c).1 =
        RepairAction.removeBroken :: RepairAction.runInstaller :: rest := by
  refine ⟨by decide, by decide, ?_⟩
  rintro ⟨eb, o, ea, v⟩ hb
  cases hb
  exact ⟨_, rfl⟩

/-- C7 (witness): a concrete repair case with the broken file present,
whose action trace starts with the deletion followed by the install. -/
theorem c7_repair_derivation_witness :
    ∃ rest, (reinstallPackage ⟨true, Outcome.ok, true, true⟩).1 =
      RepairAction.removeBroken :: RepairAction.runInstaller :: rest :=
  c7_repair_derivation.2.2 ⟨true, Outcome.ok, true, true⟩ rfl

/- ===================================================================
   Claims C8, C10: storage scanner filters
   =================================================================== -/

/-- C8 (counterexample): the name-validity filter is not applied by every
package listing.  The full-refresh script's own scanner returns a list
containing the flag-like directory name and the service file name that the
claim says are excluded. -/
theorem c8_filter_counterexample :
    "-flag-like".data ∈ getPackageList exScanStorage ∧
    "data.json".data ∈ getPackageList exScanStorage := by decide

/-- C8 (amended): the library scanner applies the name-validity filter —
.hidden, -flag-like and data.json are excluded from its package list while
@scope/valid-name and lodash are included — but the full-refresh script's
own listing excludes only dot-prefixed names, so the flag-like and service
names remain in its returned list. -/
theorem c8_filter_amended :
    getAllPackages exScanStorage =
      ["lodash".data, "@scope/valid-name".data] ∧
    ".hidden".data ∉ getAllPackages exScanStorage ∧
    "-flag-like".data ∉ getAllPackages exScanStorage ∧
    "data.json".data ∉ getAllPackages exScanStorage ∧
    getPackageList exScanStorage =
      ["-flag-like".data, "data.json".data, "lodash".data,
        "@scope/valid-name".data] := by decide

/-- C10: a package directory whose metadata document is absent, unreadable
or unparsable passes the validity check (the error branch falls through to
acceptance) and the package is listed as eligible for refresh. -/
theorem c10_error_branch_accepts :
    isValidPackage MetaState.absent = true ∧
    isValidPackage MetaState.unreadable = true ∧
    isValidPackage MetaState.unparsable = true ∧
    getAllPackages exErrMetaStorage =
      ["lodash".data, "react".data, "vue".data] := by decide

/- ===================================================================
   Lemmas about the library scanner
   =================================================================== -/

/-- A parsed metadata document with an empty versions map or an unpublished
marker fails the validity check. -/
theorem isValidPackage_doc_false (vs ts : List Name)
    (h : vs = [] ∨ "unpublished".data ∈ ts) :
    isValidPackage (MetaState.doc vs ts) = false := by
  rcases h with rfl | hm
  · simp [isValidPackage]
  · by_cases hv : vs = [] <;> simp [isValidPackage, hv, hm]

/-- Characterization of one scope-directory child scan. -/
theorem scanScopedSub_eq_some (scope : Name) (s : SubEntry) (n : Name) :
    scanScopedSub scope s = some n ↔
      (s.isDir = true ∧ startsC '.' s.name = false ∧
        isValidPackageName s.name = true ∧ isValidPackage s.meta = true ∧
        n = scopedName scope s.name) := by
  cases hd : s.isDir <;> cases hh : startsC '.' s.name <;>
    cases hv : isValidPackageName s.name <;>
      cases hm : isValidPackage s.meta <;>
        simp [scanScopedSub, hd, hh, hv, hm, eq_comm]

/-- Characterization of the names contributed by one top-level entry. -/
theorem mem_scanTopEntry (e : TopEntry) (n : Name) :
    n ∈ scanTopEntry e ↔
      (startsC '.' e.name = false ∧ startsC '@' e.name = false ∧
        e.isDir = true ∧ isValidPackageName e.name = true ∧
        isValidPackage e.meta = true ∧ n = e.name) ∨
      (startsC '.' e.name = false ∧ startsC '@' e.name = true ∧
        ∃ s ∈ e.sub, s.isDir = true ∧ startsC '.' s.name = false ∧
          isValidPackageName s.name = true ∧ isValidPackage s.meta = true ∧
          n = scopedName e.name s.name) := by
  have hbf : ∀ b : Bool, ¬ b = true → b = false := fun b h => by simpa using h
  by_cases h1 : startsC '.' e.name
  · simp [scanTopEntry, h1]
  · have h1f : startsC '.' e.name = false := hbf _ h1
    by_cases h2 : startsC '@' e.name
    · have hlist : scanTopEntry e = e.sub.filterMap (scanScopedSub e.name) := by
        simp [scanTopEntry, h1, h2]
      rw [hlist, List.mem_filterMap]
      constructor
      · rintro ⟨s, hs, hsome⟩
        obtain ⟨ha, hb, hc, hd, he⟩ := (scanScopedSub_eq_some e.name s n).mp hsome
        exact Or.inr ⟨h1f, h2, s, hs, ha, hb, hc, hd, he⟩
      · rintro (⟨_, hnb, _⟩ | ⟨_, _, s, hs, ha, hb, hc, hd, he⟩)
        · rw [h2] at hnb
          cases hnb
        · exact ⟨s, hs, (scanScopedSub_eq_some e.name s n).mpr ⟨ha, hb, hc, hd, he⟩⟩
    · have h2f : startsC '@' e.name = false := hbf _ h2
      by_cases h3 : e.isDir
      · by_cases h45 : (isValidPackageName e.name && isValidPackage e.meta) = true
        · have hlist : scanTopEntry e = [e.name] := by
            simp [scanTopEntry, h1, h2, h3, h45]
          rw [hlist]
          simp only [List.mem_singleton]
          constructor
          · intro hn
            have h4 := (Bool.and_eq_true _ _).mp h45
            exact Or.inl ⟨h1f, h2f, h3, h4.1, h4.2, hn⟩
          · rintro (⟨_, _, _, _, _, hn⟩ | ⟨_, hb, _⟩)
            · exact hn
            · rw [h2f] at hb
              cases hb
        · have hlist : scanTopEntry e = [] := by
            simp [scanTopEntry, h1, h2, h3, h45]
          rw [hlist]
          simp only [List.not_mem_nil, false_iff]
          rintro (⟨_, _, _, h4, h5, _⟩ | ⟨_, hb, _⟩)
          · exact h45 ((Bool.and_eq_true _ _).mpr ⟨h4, h5⟩)
          · rw [h2f] at hb
            cases hb
      · have h3f : e.isDir = false := hbf _ h3
        have hlist : scanTopEntry e = [] := by simp [scanTopEntry, h1, h2, h3]
        rw [hlist]
        simp only [List.not_mem_nil, false_iff]
        rintro (⟨_, _, hd, _⟩ | ⟨_, hb, _⟩)
        · rw [h3f] at hd
          cases hd
        · rw [h2f] at hb
          cases hb

/-- A scoped composite name starts with the scope sigil whenever the scope
name does. -/
theorem startsC_scopedName (a b : Name) (h : startsC '@' a = true) :
    startsC '@' (scopedName a b) = true := by
  cases a with
  | nil => simp [startsC] at h
  | cons c t => simpa [scopedName, startsC] using h

/-- A scoped composite name always contains a slash. -/
theorem slash_mem_scopedName (a b : Name) : ('/' : Char) ∈ scopedName a b := by
  simp [scopedName]

/-- Composition of a scoped name from slash-free scope names is injective
in both components. -/
theorem scopedName_inj (a : Name) : ∀ (x b y : Name),
    ('/' : Char) ∉ a → ('/' : Char) ∉ x →
    scopedName a b = scopedName x y → a = x ∧ b = y := by
  induction a with
  | nil =>
    intro x b y _ hx h
    cases x with
    | nil => simpa [scopedName] using h
    | cons d xs =>
      simp only [scopedName, List.nil_append, List.cons_append,
        List.cons.injEq] at h
      cases h.1
      exact absurd (List.mem_cons_self _ _) hx
  | cons c as ih =>
    intro x b y ha hx h
    cases x with
    | nil =>
      simp only [scopedName, List.nil_append, List.cons_append,
        List.cons.injEq] at h
      rw [h.1] at ha
      exact absurd (List.mem_cons_self _ _) ha
    | cons d xs =>
      simp only [scopedName, List.cons_append, List.cons.injEq] at h
      obtain ⟨rfl, h2⟩ := h
      have ha2 : ('/' : Char) ∉ as := fun hm => ha (List.mem_cons_of_mem _ hm)
      have hx2 : ('/' : Char) ∉ xs := fun hm => hx (List.mem_cons_of_mem _ hm)
      obtain ⟨h3, h4⟩ := ih xs b y ha2 hx2 h2
      exact ⟨by rw [h3], h4⟩

/- ===================================================================
   Claims C9, C3 context: scanner eligibility
   =================================================================== -/

/-- C9: in a storage tree whose directory names are slash-free and distinct
per level, a package cache entry whose metadata document has an empty
versions map or an unpublished marker in its time map — whether unscoped or
inside a scope directory — never appears in the package list returned for
refresh. -/
theorem c9_ineligible_excluded (tree : Storage)
    (hslash : ∀ e ∈ tree, ('/' : Char) ∉ TopEntry.name e)
    (hnd : (tree.map TopEntry.name).Nodup)
    (hndSub : ∀ e ∈ tree, (e.sub.map SubEntry.name).Nodup) :
    (∀ e ∈ tree, startsC '@' e.name = false →
      ∀ vs ts, e.meta = MetaState.doc vs ts →
      (vs = [] ∨ "unpublished".data ∈ ts) →
      e.name ∉ getAllPackages tree) ∧
    (∀ e ∈ tree, startsC '@' e.name = true → ∀ s ∈ e.sub,
      ∀ vs ts, s.meta = MetaState.doc vs ts →
      (vs = [] ∨ "unpublished".data ∈ ts) →
      scopedName e.name s.name ∉ getAllPackages tree) := by
  constructor
  · intro e he hat vs ts hdoc hbad hmem
    rw [getAllPackages, List.mem_flatMap] at hmem
    obtain ⟨e2, he2, hmem2⟩ := hmem
    rcases (mem_scanTopEntry e2 e.name).mp hmem2 with
      ⟨_, _, _, _, hvalid, hname⟩ | ⟨_, hat2, s, _, _, _, _, _, hname⟩
    · have hee : e2 = e := List.inj_on_of_nodup_map hnd he2 he hname.symm
      rw [hee, hdoc, isValidPackage_doc_false vs ts hbad] at hvalid
      simp at hvalid
    · have hsc := startsC_scopedName e2.name s.name hat2
      rw [← hname, hat] at hsc
      simp at hsc
  · intro e he hat s hs vs ts hdoc hbad hmem
    rw [getAllPackages, List.mem_flatMap] at hmem
    obtain ⟨e2, he2, hmem2⟩ := hmem
    rcases (mem_scanTopEntry e2 (scopedName e.name s.name)).mp hmem2 with
      ⟨_, _, _, _, _, hname⟩ | ⟨_, _, s2, hs2, _, _, _, hvalid2, hname⟩
    · exact hslash e2 he2 (hname ▸ slash_mem_scopedName e.name s.name)
    · obtain ⟨heq, hseq⟩ := scopedName_inj e2.name e.name s2.name s.name
        (hslash e2 he2) (hslash e he) hname.symm
      have hee : e2 = e := List.inj_on_of_nodup_map hnd he2 he heq
      rw [hee] at hs2
      have hss : s2 = s := List.inj_on_of_nodup_map (hndSub e he) hs2 hs hseq
      rw [hss, hdoc, isValidPackage_doc_false vs ts hbad] at hvalid2
      simp at hvalid2

/-- C9 (witness): in the concrete tree the entry with an empty versions map
and the entry with an unpublished marker are both missing from the returned
package list. -/
theorem c9_ineligible_excluded_witness :
    "gone".data ∉ getAllPackages exMetaStorage ∧
    "pulled".data ∉ getAllPackages exMetaStorage := by
  have h := (c9_ineligible_excluded exMetaStorage (by decide) (by decide)
    (by decide)).1
  exact ⟨h ⟨"gone".data, true, MetaState.doc [] [], []⟩ (by decide) (by decide)
      [] [] rfl (Or.inl rfl),
    h ⟨"pulled".data, true,
        MetaState.doc ["1.0.0".data] ["unpublished".data], []⟩ (by decide)
      (by decide) ["1.0.0".data] ["unpublished".data] rfl
      (Or.inr (by decide))⟩

/- ===================================================================
   Lemmas about the progress tracker, and claim C1
   =================================================================== -/

/-- One increment call bumps current by one, keeps the total, and bumps
exactly one of the success and failed counters. -/
theorem increment_spec (t : Tracker) (pkg : Name) (s : Bool) (m : Name) :
    (increment t pkg s m).current = t.current + 1 ∧
    (increment t pkg s m).total = t.total ∧
    (increment t pkg s m).success + (increment t pkg s m).failed =
      t.success + t.failed + 1 := by
  unfold increment
  by_cases hc : (t.current + 1) % 10 = 0 ∨ t.current + 1 = t.total
  · rw [if_pos hc]
    cases s <;> simp <;> omega
  · rw [if_neg hc]
    cases s <;> simp <;> omega

/-- The increment that brings current up to total persists the progress
document of the resulting state. -/
theorem increment_persists (t : Tracker) (pkg : Name) (s : Bool) (m : Name)
    (h : t.current + 1 = t.total) :
    (increment t pkg s m).persisted =
      some (reportOf (increment t pkg s m)) := by
  unfold increment
  rw [if_pos (Or.inr h)]
  rfl

/-- Unfolding one work item of the pool fold. -/
theorem runFrom_cons (t : Tracker) (w : Name × Outcome) (ws : WorkList) :
    runFrom t (w :: ws) =
      runFrom (increment t w.1 (outcomeSuccess w.2) (outcomeErrMsg w.2)) ws := by
  simp [runFrom, installPackage]

/-- Counter bookkeeping of a full fold: current grows by the work-list
length, the total is unchanged, and success plus failed grows by the
work-list length — every item is recorded exactly once. -/
theorem runFrom_spec (work : WorkList) : ∀ t : Tracker,
    (runFrom t work).current = t.current + work.length ∧
    (runFrom t work).total = t.total ∧
    (runFrom t work).success + (runFrom t work).failed =
      t.success + t.failed + work.length := by
  induction work with
  | nil =>
    intro t
    simp [runFrom]
  | cons w ws ih =>
    intro t
    rw [runFrom_cons]
    obtain ⟨h1, h2, h3⟩ :=
      ih (increment t w.1 (outcomeSuccess w.2) (outcomeErrMsg w.2))
    obtain ⟨g1, g2, g3⟩ :=
      increment_spec t w.1 (outcomeSuccess w.2) (outcomeErrMsg w.2)
    simp only [List.length_cons]
    exact ⟨by omega, by omega, by omega⟩

/-- When the tracker total equals the starting current plus the remaining
work, a nonempty fold ends having just persisted the final state's
progress document. -/
theorem runFrom_persists (work : WorkList) : ∀ t : Tracker,
    work ≠ [] → t.total = t.current + work.length →
    (runFrom t work).persisted = some (reportOf (runFrom t work)) := by
  induction work with
  | nil =>
    intro t h _
    exact absurd rfl h
  | cons w ws ih =>
    intro t _ htot
    rw [runFrom_cons]
    by_cases hws : ws = []
    · subst hws
      simp only [runFrom, List.foldl_nil]
      apply increment_persists
      simp only [List.length_cons, List.length_nil] at htot
      omega
    · apply ih _ hws
      obtain ⟨g1, g2, _⟩ :=
        increment_spec t w.1 (outcomeSuccess w.2) (outcomeErrMsg w.2)
      simp only [List.length_cons] at htot
      omega

/-- C1: after the worker pool completes over any completion order of the
refs, every install has been recorded exactly once (current equals the
number of refs, also for timeouts and exceptions), the tracker's success
plus failed counters equal the number of refs, and — whenever there was any
work — the success count in the final persisted progress document equals
the success count of the returned summary. -/
theorem c1_orchestrator_counts (work : WorkList) :
    (runAll work).current = work.length ∧
    (runAll work).success + (runAll work).failed = work.length ∧
    (work ≠ [] → ∃ r, (runAll work).persisted = some r ∧
      r.success = (updateAllSummary work).success) := by
  obtain ⟨h1, h2, h3⟩ := runFrom_spec work (initTracker work.length)
  refine ⟨by simpa [runAll, initTracker] using h1,
    by simpa [runAll, initTracker] using h3, ?_⟩
  intro hne
  refine ⟨reportOf (runAll work), ?_, rfl⟩
  exact runFrom_persists work (initTracker work.length) hne
    (by simp [initTracker])

/-- C1 (witness): the two-install work list has a persisted final progress
document whose success count matches the summary. -/
theorem c1_orchestrator_counts_witness :
    ∃ r, (runAll exWork).persisted = some r ∧
      r.success = (updateAllSummary exWork).success :=
  (c1_orchestrator_counts exWork).2.2 (by decide)

/- ===================================================================
   Claims C2, C3: final status derivation and status vocabulary
   =================================================================== -/

/-- C2 (counterexample): a single-package refresh run whose one install
fails has failure count 1 yet ends with status failed, not
completed_with_errors, refuting the claim that every run derives its final
status from the failure count as completed versus completed_with_errors. -/
theorem c2_status_counterexample :
    updateSingleFailedCount (Outcome.fail []) = 1 ∧
    finalStatus (updateSingleStatusTrace true (Outcome.fail [])) = "failed" ∧
    finalStatus (updateSingleStatusTrace true (Outcome.fail [])) ≠
      "completed_with_errors" := by decide

/-- C2 (amended): for the bulk runs — full refresh, recent refresh, repair,
and sync — the final status is completed when the failed counter is zero
and completed_with_errors otherwise, and a run that enumerates zero work
items ends completed (never failed); the single-package refresh instead
ends completed on success and failed on failure. -/
theorem c2_status_amended :
    (∀ work : WorkList,
      finalStatus (updateAllStatusTrace true work) =
        if (runAll work).failed = 0 then "completed"
        else "completed_with_errors") ∧
    finalStatus (updateAllStatusTrace true []) = "completed" ∧
    (∀ work : WorkList,
      finalStatus (updateRecentStatusTrace true work) =
        if failedCount work = 0 then "completed"
        else "completed_with_errors") ∧
    (∀ cases : List RepairCase,
      finalStatus (fixBrokenStatusTrace true cases) =
        if failedRepairs cases = 0 then "completed"
        else "completed_with_errors") ∧
    (∀ manifest storage cf,
      finalStatus (syncFrozenStatusTrace true true manifest storage cf) =
        if failedCopies manifest storage cf = 0 then "completed"
        else "completed_with_errors") ∧
    (∀ o : Outcome,
      finalStatus (updateSingleStatusTrace true o) =
        if outcomeSuccess o then "completed" else "failed") := by
  refine ⟨?_, by decide, ?_, ?_, ?_, ?_⟩
  · intro work
    by_cases hw : work = []
    · subst hw
      decide
    · by_cases hf : (runAll work).failed = 0 <;>
        simp [updateAllStatusTrace, hw, hf, finalStatus]
  · intro work
    by_cases hw : work = []
    · subst hw
      decide
    · by_cases hf : failedCount work = 0 <;>
        simp [updateRecentStatusTrace, hw, hf, finalStatus]
  · intro cs
    by_cases hw : cs = []
    · subst hw
      decide
    · by_cases hf : failedRepairs cs = 0 <;>
        simp [fixBrokenStatusTrace, hw, hf, finalStatus]
  · intro manifest storage cf
    by_cases hf : failedCopies manifest storage cf = 0 <;>
      simp [syncFrozenStatusTrace, hf, finalStatus]
  · intro o
    cases ho : outcomeSuccess o <;>
      simp [updateSingleStatusTrace, ho, finalStatus]

/-- C3 (counterexample): the integrity checker writes the status value
completed_with_issues when it finds broken archives, and that value is not
in the specified status vocabulary. -/
theorem c3_status_counterexample :
    "completed_with_issues" ∈
      checkBrokenStatusTrace true [("x.tgz".data, true)] ∧
    "completed_with_issues" ∉ specStatusSet := by decide

/-- C3 (amended): every status value ever written by any of the seven
operations (full, recent and single refresh, integrity check, repair, diff,
sync) lies in the specified vocabulary extended with the
completed_with_issues value that the integrity checker writes when broken
archives are found. -/
theorem c3_status_amended :
    (∀ he work s, s ∈ updateAllStatusTrace he work → s ∈ codeStatusSet) ∧
    (∀ he work s, s ∈ updateRecentStatusTrace he work → s ∈ codeStatusSet) ∧
    (∀ se o s, s ∈ updateSingleStatusTrace se o → s ∈ codeStatusSet) ∧
    (∀ se ar s, s ∈ checkBrokenStatusTrace se ar → s ∈ codeStatusSet) ∧
    (∀ le cs s, s ∈ fixBrokenStatusTrace le cs → s ∈ codeStatusSet) ∧
    (∀ se st fz s, s ∈ createDiffStatusTrace se st fz → s ∈ codeStatusSet) ∧
    (∀ dg me mf st cf s,
      s ∈ syncFrozenStatusTrace dg me mf st cf → s ∈ codeStatusSet) := by
  refine ⟨?_, ?_, ?_, ?_, ?_, ?_, ?_⟩
  · intro he work s hs
    cases he
    · simp [updateAllStatusTrace] at hs
      rcases hs with rfl | rfl <;> decide
    · by_cases hw : work = []
      · subst hw
        simp [updateAllStatusTrace] at hs
        rcases hs with rfl | rfl <;> decide
      · by_cases hf : (runAll work).failed = 0 <;>
          simp [updateAllStatusTrace, hw, hf] at hs <;>
          rcases hs with rfl | rfl | rfl <;> decide
  · intro he work s hs
    cases he
    · simp [updateRecentStatusTrace] at hs
      rcases hs with rfl | rfl <;> decide
    · by_cases hw : work = []
      · subst hw
        simp [updateRecentStatusTrace] at hs
        rcases hs with rfl | rfl <;> decide
      · by_cases hf : failedCount work = 0 <;>
          simp [updateRecentStatusTrace, hw, hf] at hs <;>
          rcases hs with rfl | rfl | rfl <;> decide
  · intro se o s hs
    cases se
    · simp [updateSingleStatusTrace] at hs
      rcases hs with rfl | rfl <;> decide
    · cases ho : outcomeSuccess o <;>
        simp [updateSingleStatusTrace, ho] at hs <;>
        rcases hs with rfl | rfl <;> decide
  · intro se ar s hs
    cases se
    · simp [checkBrokenStatusTrace] at hs
      rcases hs with rfl | rfl <;> decide
    · by_cases ha : ar = []
      · subst ha
        simp [checkBrokenStatusTrace] at hs
        rcases hs with rfl | rfl <;> decide
      · by_cases hb : brokenCount ar = 0 <;>
          simp [checkBrokenStatusTrace, ha, hb] at hs <;>
          rcases hs with rfl | rfl | rfl | rfl <;> decide
  · intro le cs s hs
    cases le
    · simp [fixBrokenStatusTrace] at hs
      rcases hs with rfl | rfl <;> decide
    · by_cases hc : cs = []
      · subst hc
        simp [fixBrokenStatusTrace] at hs
        rcases hs with rfl | rfl <;> decide
      · by_cases hf : failedRepairs cs = 0 <;>
          simp [fixBrokenStatusTrace, hc, hf] at hs <;>
          rcases hs with rfl | rfl | rfl <;> decide
  · intro se st fz s hs
    cases se
    · simp [createDiffStatusTrace] at hs
      rcases hs with rfl | rfl <;> decide
    · by_cases hd : getDiffFiles st fz = [] <;>
        simp [createDiffStatusTrace, hd] at hs <;>
        rcases hs with rfl | rfl | rfl <;> decide
  · intro dg me mf st cf s hs
    cases dg
    · simp [syncFrozenStatusTrace] at hs
      subst hs
      decide
    · cases me
      · simp [syncFrozenStatusTrace] at hs
        rcases hs with rfl | rfl <;> decide
      · by_cases hf : failedCopies mf st cf = 0 <;>
          simp [syncFrozenStatusTrace, hf] at hs <;>
          rcases hs with rfl | rfl <;> decide

/-- C3 (amended, witness): the running value written by an empty full
refresh is in the reachable status vocabulary. -/
theorem c3_status_amended_witness : ("running" : String) ∈ codeStatusSet :=
  c3_status_amended.1 true [] "running" (by decide)
